import Mathlib

/-!
# Verification of the OpenAPI-to-MDX documentation generator

A shallow embedding of `generate_api_docs.py`: the line-oriented
structural extractor (`parse_yaml_basic`), the filename sanitizer
(`sanitize_filename`), the categorizer (`get_endpoint_category`), the
endpoint/filename assignment loop of `main`, and the navigation builder
(`generate_navigation_config`), together with theorems settling the
frozen claims about them.

Unicode caveat: the Python source works on full Unicode (`\w` in
regexes, `str.lower`, `str.strip`).  The embedding models the character
classes over ASCII plus the CJK range `一-鿿` that the source
names explicitly, and models `str.lower` by the ASCII `Char.toLower`;
all inputs appearing in the claims are ASCII, where the two coincide.
-/

namespace ApiDocs

/-! ## Python string primitives, modelled on `List Char` / `String` -/

/-- Python `str.strip()` whitespace class (ASCII fragment):
tab, newline, vertical tab, form feed, carriage return, space. -/
def isSpaceChar (c : Char) : Bool :=
  c.toNat == 9 || c.toNat == 10 || c.toNat == 11 || c.toNat == 12 ||
  c.toNat == 13 || c.toNat == 32

/-- Quote characters removed by the source's `.strip('\x27"')`. -/
def isQuoteChar (c : Char) : Bool :=
  c.toNat == 39 || c.toNat == 34

/-- Python `s.strip(chars)` on a character list: remove the maximal run
of characters satisfying `p` from both ends. -/
def stripEnds (p : Char → Bool) (l : List Char) : List Char :=
  ((l.dropWhile p).reverse.dropWhile p).reverse

/-- Python `s.strip()` (no argument): strip whitespace from both ends. -/
def pyTrim (s : String) : String :=
  ⟨stripEnds isSpaceChar s.data⟩

/-- Python `s.strip('\x27"')`. -/
def pyStripQuotes (s : String) : String :=
  ⟨stripEnds isQuoteChar s.data⟩

/-- Python `s.startswith(pre)`. -/
def pyStartsWith (s pre : String) : Bool :=
  pre.data.isPrefixOf s.data

/-- Python `s.endswith(suf)`. -/
def pyEndsWith (s suf : String) : Bool :=
  suf.data.isSuffixOf s.data

/-- Python `s[n:]`. -/
def pyDrop (s : String) (n : Nat) : String :=
  ⟨s.data.drop n⟩

/-- Python `s[:-1]` (also correct for the empty string). -/
def pyDropLast (s : String) : String :=
  ⟨s.data.dropLast⟩

/-- Python `s.lower()` (ASCII model). -/
def pyLower (s : String) : String :=
  ⟨s.data.map Char.toLower⟩

/-- Substring test on character lists: `sub` occurs contiguously in `l`.
Models the Python `in` operator on strings. -/
def hasInfix (sub : List Char) : List Char → Bool
  | [] => sub.isEmpty
  | c :: rest => sub.isPrefixOf (c :: rest) || hasInfix sub rest

/-- Python `sub in s` for strings. -/
def pyContains (s sub : String) : Bool :=
  hasInfix sub.data s.data

/-- Python `content.split('\n')` on a character list. -/
def splitNl : List Char → List (List Char)
  | [] => [[]]
  | c :: rest =>
    match splitNl rest with
    | [] => [[c]]
    | h :: t => if c == '\n' then [] :: h :: t else (c :: h) :: t

/-- Python `content.split('\n')` for strings. -/
def pyLines (content : String) : List String :=
  (splitNl content.data).map (fun l => ⟨l⟩)

/-- Python `path.replace('/', '-')` (single-character replacement). -/
def replaceSlash (s : String) : String :=
  ⟨s.data.map (fun c => if c == '/' then '-' else c)⟩

/-! ## `sanitize_filename` -/

/-- The character class kept by the first substitution
`re.sub(r'[^\w一-鿿\-]', '-', name)`: word characters
(`\w`: letters, digits, underscore — ASCII model), the CJK range
`一-鿿`, and the hyphen. -/
def keptChar (c : Char) : Bool :=
  (48 ≤ c.toNat && c.toNat ≤ 57) ||
  (65 ≤ c.toNat && c.toNat ≤ 90) ||
  (97 ≤ c.toNat && c.toNat ≤ 122) ||
  c.toNat == 95 ||
  (0x4e00 ≤ c.toNat && c.toNat ≤ 0x9fff) ||
  c.toNat == 45

/-- `re.sub(r'-+', '-', name)`: collapse each run of hyphens to one. -/
def collapseHyphens : List Char → List Char
  | [] => []
  | [c] => [c]
  | a :: b :: rest =>
    if a == '-' && b == '-' then collapseHyphens (b :: rest)
    else a :: collapseHyphens (b :: rest)

/-- `sanitize_filename`: replace every non-kept character by `-`,
collapse repeated hyphens, strip leading/trailing hyphens, lower-case. -/
def sanitize_filename (name : String) : String :=
  ⟨(stripEnds (fun c => c == '-')
      (collapseHyphens
        (name.data.map (fun c => if keptChar c then c else '-')))).map
    Char.toLower⟩

/-! ## `get_endpoint_category` -/

/-- The tag-keyword rules of `get_endpoint_category`: given the
lower-cased first tag, the first matching rule wins; `none` when no
rule matches and control falls through to the path rules. -/
def categoryFromTag (mt : String) : Option String :=
  if pyContains mt "openai" then
    some (if pyContains mt "gpt 4o" then "openai-gpt4o"
          else if pyContains mt "gpt" || pyContains mt "reasoning" then "openai-gpt"
          else if pyContains mt "audio" then "openai-audio"
          else "openai")
  else if pyContains mt "claude" then some "claude"
  else if pyContains mt "gemini" then
    some (if pyContains mt "veo3" || pyContains mt "video" then "gemini-veo"
          else "gemini")
  else if pyContains mt "grok" then some "grok"
  else if pyContains mt "midjourney" then some "midjourney"
  else if pyContains mt "suno" then some "suno"
  else if pyContains mt "kling" then some "kling"
  else if pyContains mt "runway" then some "runway"
  else if pyContains mt "ideogram" then some "ideogram"
  else if pyContains mt "flux" then some "flux"
  else if pyContains mt "doubao" then some "doubao"
  else if pyContains mt "higgsfield" then some "higgsfield"
  else if pyContains mt "qwen" then some "qwen"
  else if pyContains mt "minimax" then some "minimax"
  else none

/-- The path-substring fallback rules of `get_endpoint_category`. -/
def categoryFromPath (path : String) : String :=
  let pl := pyLower path
  if pyContains pl "/chat/" then "openai-gpt"
  else if pyContains pl "/images/" then "image-models"
  else if pyContains pl "/audio/" then "audio-models"
  else if pyContains pl "/veo/" then "gemini-veo"
  else if pyContains pl "/mj/" then "midjourney"
  else if pyContains pl "gemini" then "gemini"
  else if pyContains pl "/upload/" || pyContains pl "/files" then "file-services"
  else if pyContains pl "/task" then "task-services"
  else "other"

/-- `get_endpoint_category(path, tags)`: tag rules on the first tag
take priority; otherwise fall back to path rules. -/
def get_endpoint_category (path : String) (tags : List String) : String :=
  match tags with
  | [] => categoryFromPath path
  | t :: _ =>
    match categoryFromTag (pyLower t) with
    | some c => c
    | none => categoryFromPath path

/-! ## `parse_yaml_basic` -/

/-- One operation's metadata: dictionary keys `summary`, `description`,
`tags` of the Python `current_operation`; `none` models an absent key. -/
structure Operation where
  summary : Option String := none
  description : Option String := none
  tags : Option (List String) := none
deriving Repr, DecidableEq

/-- Empty `current_operation` dictionary. -/
def emptyOp : Operation := {}

/-- Method-name → operation map (Python dict, insertion-ordered). -/
abbrev MethodMap := List (String × Operation)

/-- Path → method map (Python dict, insertion-ordered). -/
abbrev PathMap := List (String × MethodMap)

/-- Python dict assignment `m[k] = v`: update in place if the key
exists (keeping its position), else append. -/
def updateAssoc {α : Type} : List (String × α) → String → α → List (String × α)
  | [], k, v => [(k, v)]
  | (k', v') :: rest, k, v =>
    if k' == k then (k, v) :: rest else (k', v') :: updateAssoc rest k v

/-- Python dict lookup returning `none` for a missing key. -/
def lookupAssoc {α : Type} : List (String × α) → String → Option α
  | [], _ => none
  | (k', v) :: rest, k => if k' == k then some v else lookupAssoc rest k

/-- The store in `parse_yaml_basic`:
`if path not in paths: paths[path] = {}` followed by
`paths[path][method] = op`. -/
def storeOp (paths : PathMap) (p m : String) (op : Operation) : PathMap :=
  updateAssoc paths p (updateAssoc ((lookupAssoc paths p).getD []) m op)

/-- The scanning state of `parse_yaml_basic`: the accumulated `paths`
dict, the open path/method cursor, the in-progress operation, and the
tag-block state. -/
structure ParserState where
  paths : PathMap
  current_path : Option String
  current_method : Option String
  current_operation : Operation
  in_tags : Bool
  tags : List String
deriving Repr

/-- Initial scanning state. -/
def initState : ParserState :=
  ⟨[], none, none, emptyOp, false, []⟩

/-- A trimmed line opening a path: starts with `/` and ends with `:`. -/
def isPathLine (t : String) : Bool :=
  pyStartsWith t "/" && pyEndsWith t ":"

/-- The five HTTP method markers recognized by the parser. -/
def httpMethods : List String :=
  ["get:", "post:", "put:", "delete:", "patch:"]

/-- A trimmed line opening a method: literal membership in
`['get:', 'post:', 'put:', 'delete:', 'patch:']`. -/
def isMethodLine (t : String) : Bool :=
  httpMethods.contains t

/-- If both cursors are truthy, finalize the in-progress operation into
`paths`; shared by the path and method branches and the end of input. -/
def commitCurrent (st : ParserState) : PathMap :=
  match st.current_path, st.current_method with
  | some p, some m =>
    if !(p == "") && !(m == "") then storeOp st.paths p m st.current_operation
    else st.paths
  | _, _ => st.paths

/-- One iteration of the `for line in lines` loop of `parse_yaml_basic`,
with the branches in source order. -/
def step (st : ParserState) (line : String) : ParserState :=
  let t := pyTrim line
  if isPathLine t then
    { paths := commitCurrent st
      current_path := some (pyDropLast t)
      current_method := none
      current_operation := emptyOp
      in_tags := false
      tags := [] }
  else if isMethodLine t then
    { paths := commitCurrent st
      current_path := st.current_path
      current_method := some (pyDropLast t)
      current_operation := emptyOp
      in_tags := false
      tags := [] }
  else if t == "tags:" then
    { st with in_tags := true, tags := [] }
  else if st.in_tags && pyStartsWith t "- " then
    { st with tags := st.tags ++ [pyTrim (pyDrop t 2)] }
  else if !(t == "") && !(pyStartsWith t "- ") && !(pyStartsWith t " ") && st.in_tags then
    { st with in_tags := false
              current_operation := { st.current_operation with tags := some st.tags } }
  else if pyStartsWith t "summary:" then
    let st' := if st.in_tags then
        { st with in_tags := false
                  current_operation := { st.current_operation with tags := some st.tags } }
      else st
    { st' with current_operation :=
        { st'.current_operation with summary := some (pyStripQuotes (pyTrim (pyDrop t 8))) } }
  else if pyStartsWith t "description:" then
    let st' := if st.in_tags then
        { st with in_tags := false
                  current_operation := { st.current_operation with tags := some st.tags } }
      else st
    { st' with current_operation :=
        { st'.current_operation with description := some (pyStripQuotes (pyTrim (pyDrop t 11))) } }
  else st

/-- The root parse result (the Python `{'paths': paths}` wrapper). -/
structure Specification where
  paths : PathMap
deriving Repr

/-- End-of-input handling of `parse_yaml_basic`: commit a still-open tag
block onto the operation, then finalize it under the open cursor. -/
def finalize (st : ParserState) : Specification :=
  match st.current_path, st.current_method with
  | some p, some m =>
    if !(p == "") && !(m == "") then
      let op := if st.in_tags then { st.current_operation with tags := some st.tags }
                else st.current_operation
      ⟨storeOp st.paths p m op⟩
    else ⟨st.paths⟩
  | _, _ => ⟨st.paths⟩

/-- `parse_yaml_basic(content)`: scan the lines, then finalize. -/
def parse_yaml_basic (content : String) : Specification :=
  finalize ((pyLines content).foldl step initState)

/-- Operation stored at `(path, method)`, if any. -/
def lookupOp (spec : Specification) (p m : String) : Option Operation :=
  (lookupAssoc spec.paths p).bind (fun mm => lookupAssoc mm m)

/-! ## Endpoint and filename assignment (`main`) -/

/-- One derived endpoint record appended to `endpoints_by_category`. -/
structure Endpoint where
  path : String
  method : String
  operation : Operation
  filename : String
  summary : String
deriving Repr, DecidableEq

/-- `endpoints_by_category` (Python dict of lists, insertion-ordered). -/
abbrev ByCategory := List (String × List Endpoint)

/-- `f"{base}-{k}"`, the `k`-th suffixed filename candidate. -/
def candName (base : String) (k : Nat) : String :=
  base ++ "-" ++ toString k

/-- Every filename assigned so far, across all categories: the scan
`any(ep['filename'] == filename for ep_list in
endpoints_by_category.values() for ep in ep_list)`. -/
def usedNames (ebc : ByCategory) : List String :=
  (ebc.flatMap (fun ce => ce.2)).map (fun e => e.filename)

/-- The collision loop `while filename in used: filename = base-counter`.
`fuel` only bounds the recursion; `uniquify` supplies `used.length + 1`
candidates, more than the `used.length` names they could collide with,
so the fuel-exhausted fallback is never reached. -/
def uniquifyGo (used : List String) (base : String) : Nat → Nat → String
  | k, 0 => candName base k
  | k, fuel + 1 =>
    if used.contains (candName base k) then uniquifyGo used base (k + 1) fuel
    else candName base k

/-- Resolve a base filename against the names already assigned:
keep it if unused, else append `-1`, `-2`, … until unused. -/
def uniquify (used : List String) (base : String) : String :=
  if used.contains base then uniquifyGo used base 1 (used.length + 1)
  else base

/-- Python dict-of-lists append:
`endpoints_by_category.setdefault(cat, []).append(e)` semantics. -/
def appendToCategory : ByCategory → String → Endpoint → ByCategory
  | [], cat, e => [(cat, [e])]
  | (c, es) :: rest, cat, e =>
    if c == cat then (c, es ++ [e]) :: rest
    else (c, es) :: appendToCategory rest cat e

/-- The body of `main`'s inner loop for one `(path, method, operation)`
triple: categorize, derive the filename (summary-based, with the
method-and-path fallback when it sanitizes to empty, then collision
resolution), and append to `endpoints_by_category`. -/
def processOne (ebc : ByCategory) (path method : String) (op : Operation) : ByCategory :=
  if ["get", "post", "put", "delete", "patch"].contains method then
    let tags := op.tags.getD []
    let category := get_endpoint_category path tags
    let summary := op.summary.getD (method ++ "-" ++ path)
    let fn0 := sanitize_filename summary
    let fn1 := if fn0 == "" then
        sanitize_filename (method ++ "-" ++ ⟨stripEnds (fun c => c == '-') (replaceSlash path).data⟩)
      else fn0
    let filename := uniquify (usedNames ebc) fn1
    appendToCategory ebc category ⟨path, method, op, filename, summary⟩
  else ebc

/-- Inner `for method, operation in methods.items()` loop. -/
def processMethods (path : String) : ByCategory → MethodMap → ByCategory
  | ebc, [] => ebc
  | ebc, (m, op) :: rest => processMethods path (processOne ebc path m op) rest

/-- Outer `for path, methods in paths.items()` loop. -/
def processPaths : ByCategory → PathMap → ByCategory
  | ebc, [] => ebc
  | ebc, (p, ms) :: rest => processPaths (processMethods p ebc ms) rest

/-- The endpoint-collection phase of `main`. -/
def buildEndpoints (paths : PathMap) : ByCategory :=
  processPaths [] paths

/-! ## `generate_navigation_config` and the rendering loop -/

/-- One record of the navigation manifest. -/
structure NavGroup where
  group : String
  pages : List String
deriving Repr, DecidableEq

/-- Python `category.title()` (ASCII model): upper-case each letter that
follows a non-letter, lower-case every other letter. -/
def pyTitleGo : Bool → List Char → List Char
  | _, [] => []
  | prevAlpha, c :: rest =>
    (if c.isAlpha && !prevAlpha then c.toUpper
     else if c.isAlpha && prevAlpha then c.toLower
     else c) :: pyTitleGo c.isAlpha rest

/-- Python `category.title()`. -/
def pyTitle (s : String) : String :=
  ⟨pyTitleGo false s.data⟩

/-- The fixed `category_names` display-label table. -/
def category_names : List (String × String) :=
  [("openai", "OpenAI"),
   ("openai-gpt", "OpenAI GPT Series"),
   ("openai-gpt4o", "OpenAI GPT-4o"),
   ("openai-audio", "OpenAI Audio"),
   ("claude", "Claude"),
   ("gemini", "Gemini"),
   ("gemini-veo", "Gemini Veo Video"),
   ("grok", "Grok"),
   ("midjourney", "Midjourney"),
   ("suno", "Suno Music"),
   ("kling", "Kling Video"),
   ("runway", "Runway"),
   ("ideogram", "Ideogram"),
   ("flux", "Flux"),
   ("doubao", "Doubao"),
   ("higgsfield", "Higgsfield"),
   ("qwen", "Qwen"),
   ("minimax", "MiniMax"),
   ("image-models", "Image Generation Models"),
   ("audio-models", "Audio Processing Models"),
   ("file-services", "File Services"),
   ("task-services", "Task Management"),
   ("other", "Other APIs")]

/-- `generate_navigation_config`: one group per non-empty category, in
insertion order, with one `"api-reference/<category>/<filename>"` page
reference per endpoint. -/
def generate_navigation_config : ByCategory → List NavGroup
  | [] => []
  | (cat, eps) :: rest =>
    if eps.isEmpty then generate_navigation_config rest
    else
      { group := (lookupAssoc category_names cat).getD (pyTitle cat)
        pages := eps.map (fun e => "api-reference/" ++ cat ++ "/" ++ e.filename) }
        :: generate_navigation_config rest

/-- The files written by `main`'s rendering loop: one
`api-reference/<category>/<filename>.mdx` document per endpoint, in
loop order.  `total_files` is the length of this list. -/
def renderedFiles (ebc : ByCategory) : List String :=
  ebc.flatMap (fun ce =>
    ce.2.map (fun e => "api-reference/" ++ ce.1 ++ "/" ++ e.filename ++ ".mdx"))

/-! ## Predicates used by the theorems -/

/-- No two adjacent hyphens in a character list. -/
def NoDub (l : List Char) : Prop :=
  l.Chain' (fun a b => ¬(a = '-' ∧ b = '-'))

/-- All filenames recorded in `endpoints_by_category` are non-empty. -/
def GoodNames (ebc : ByCategory) : Prop :=
  ∀ ce ∈ ebc, ∀ e ∈ ce.2, e.filename ≠ ""

/-! ## Character-level support lemmas -/

theorem char_toNat_inj {a b : Char} (h : a.toNat = b.toNat) : a = b :=
  Char.ext (UInt32.eq_of_toBitVec_eq (BitVec.eq_of_toNat_eq h))

theorem char_toNat_ofNat {n : Nat} (h : n < 0xd800) : (Char.ofNat n).toNat = n := by
  rw [Char.ofNat, dif_pos (Or.inl h)]
  rfl

theorem toLower_of_upper {c : Char} (h1 : 65 ≤ c.toNat) (h2 : c.toNat ≤ 90) :
    (Char.toLower c).toNat = c.toNat + 32 := by
  rw [Char.toLower, if_pos ⟨h1, h2⟩]
  exact char_toNat_ofNat (by omega)

theorem toLower_eq_self {c : Char} (h : ¬(65 ≤ c.toNat ∧ c.toNat ≤ 90)) :
    Char.toLower c = c := by
  rw [Char.toLower, if_neg h]

theorem keptChar_iff {c : Char} :
    keptChar c = true ↔
      ((48 ≤ c.toNat ∧ c.toNat ≤ 57) ∨ (65 ≤ c.toNat ∧ c.toNat ≤ 90) ∨
       (97 ≤ c.toNat ∧ c.toNat ≤ 122) ∨ c.toNat = 95 ∨
       (0x4e00 ≤ c.toNat ∧ c.toNat ≤ 0x9fff) ∨ c.toNat = 45) := by
  simp [keptChar, Bool.or_eq_true, Bool.and_eq_true, decide_eq_true_eq, or_assoc]

theorem hyphen_toNat : ('-' : Char).toNat = 45 := rfl

theorem eq_hyphen_iff {c : Char} : c = '-' ↔ c.toNat = 45 :=
  ⟨fun h => h ▸ hyphen_toNat, fun h => char_toNat_inj (h.trans hyphen_toNat.symm)⟩

theorem keptChar_toLower {c : Char} (h : keptChar c = true) :
    keptChar (Char.toLower c) = true := by
  by_cases hu : 65 ≤ c.toNat ∧ c.toNat ≤ 90
  · have ht := toLower_of_upper hu.1 hu.2
    rw [keptChar_iff, ht]
    omega
  · rwa [toLower_eq_self hu]

theorem toLower_not_upper (c : Char) :
    ¬(65 ≤ (Char.toLower c).toNat ∧ (Char.toLower c).toNat ≤ 90) := by
  by_cases hu : 65 ≤ c.toNat ∧ c.toNat ≤ 90
  · have ht := toLower_of_upper hu.1 hu.2
    omega
  · rw [toLower_eq_self hu]
    exact hu

theorem toLower_idem (c : Char) : Char.toLower (Char.toLower c) = Char.toLower c :=
  toLower_eq_self (toLower_not_upper c)

theorem toLower_hyphen_iff {c : Char} : Char.toLower c = '-' ↔ c = '-' := by
  by_cases hu : 65 ≤ c.toNat ∧ c.toNat ≤ 90
  · have ht := toLower_of_upper hu.1 hu.2
    constructor
    · intro h
      rw [eq_hyphen_iff] at h
      omega
    · intro h
      rw [eq_hyphen_iff] at h
      omega
  · rw [toLower_eq_self hu]

/-! ## `collapseHyphens` support lemmas -/

theorem collapse_cons (a : Char) (l : List Char) :
    ∃ t, collapseHyphens (a :: l) = a :: t := by
  induction l generalizing a with
  | nil => exact ⟨[], rfl⟩
  | cons b rest ih =>
    by_cases h : a = '-' ∧ b = '-'
    · obtain ⟨t, ht⟩ := ih b
      refine ⟨t, ?_⟩
      rw [collapseHyphens, if_pos (by simp [h.1, h.2]), ht, h.1, h.2]
    · refine ⟨collapseHyphens (b :: rest), ?_⟩
      rw [collapseHyphens, if_neg (by simp only [Bool.and_eq_true, beq_iff_eq]; exact h)]

theorem collapse_subset {c : Char} : ∀ {l : List Char}, c ∈ collapseHyphens l → c ∈ l
  | [], h => by simp [collapseHyphens] at h
  | [a], h => by simpa [collapseHyphens] using h
  | a :: b :: rest, h => by
    rw [collapseHyphens] at h
    split at h
    · exact List.mem_cons_of_mem a (collapse_subset h)
    · rcases List.mem_cons.1 h with h | h
      · exact h ▸ List.mem_cons_self a _
      · exact List.mem_cons_of_mem a (collapse_subset h)

theorem mem_collapse_of_ne {c : Char} (hc : c ≠ '-') :
    ∀ {l : List Char}, c ∈ l → c ∈ collapseHyphens l
  | [], h => by simp at h
  | [a], h => by simpa [collapseHyphens] using h
  | a :: b :: rest, h => by
    rw [collapseHyphens]
    split
    · rename_i hd
      simp only [Bool.and_eq_true, beq_iff_eq] at hd
      rcases List.mem_cons.1 h with h | h
      · exact absurd (h.trans hd.1) hc
      · exact mem_collapse_of_ne hc h
    · rcases List.mem_cons.1 h with h | h
      · exact h ▸ List.mem_cons_self a _
      · exact List.mem_cons_of_mem a (mem_collapse_of_ne hc h)

theorem collapse_noDub : ∀ l : List Char, NoDub (collapseHyphens l)
  | [] => List.chain'_nil
  | [c] => List.chain'_singleton c
  | a :: b :: rest => by
    rw [collapseHyphens]
    split
    · exact collapse_noDub (b :: rest)
    · rename_i hd
      rw [Bool.and_eq_true] at hd
      obtain ⟨t, ht⟩ := collapse_cons b rest
      have htl := collapse_noDub (b :: rest)
      rw [ht] at htl ⊢
      refine List.chain'_cons.2 ⟨fun hab => ?_, htl⟩
      exact hd ⟨by simp [hab.1], by simp [hab.2]⟩

theorem collapse_id : ∀ {l : List Char}, NoDub l → collapseHyphens l = l
  | [], _ => rfl
  | [_], _ => rfl
  | a :: b :: rest, h => by
    have h1 := (List.chain'_cons.1 h).1
    have h2 := (List.chain'_cons.1 h).2
    rw [collapseHyphens, if_neg (by simp only [Bool.and_eq_true, beq_iff_eq]; exact h1),
      collapse_id h2]

/-! ## `stripEnds` support lemmas -/

theorem mem_of_mem_dropWhile {α : Type} {p : α → Bool} {c : α} {l : List α}
    (h : c ∈ l.dropWhile p) : c ∈ l :=
  (List.dropWhile_sublist p).mem h

theorem mem_dropWhile_of_ne {α : Type} {p : α → Bool} {c : α} (hc : p c = false) :
    ∀ {l : List α}, c ∈ l → c ∈ l.dropWhile p
  | [], h => by simp at h
  | a :: rest, h => by
    rw [List.dropWhile_cons]
    split
    · rename_i ha
      rcases List.mem_cons.1 h with h | h
      · rw [h] at hc
        rw [hc] at ha
        cases ha
      · exact mem_dropWhile_of_ne hc h
    · exact h

theorem mem_of_mem_stripEnds {p : Char → Bool} {c : Char} {l : List Char}
    (h : c ∈ stripEnds p l) : c ∈ l := by
  rw [stripEnds, List.mem_reverse] at h
  have h1 := mem_of_mem_dropWhile h
  rw [List.mem_reverse] at h1
  exact mem_of_mem_dropWhile h1

theorem mem_stripEnds_of_ne {p : Char → Bool} {c : Char} (hc : p c = false)
    {l : List Char} (h : c ∈ l) : c ∈ stripEnds p l := by
  rw [stripEnds, List.mem_reverse]
  exact mem_dropWhile_of_ne hc (List.mem_reverse.2 (mem_dropWhile_of_ne hc h))

theorem head?_dropWhile_false {α : Type} {p : α → Bool} :
    ∀ {l : List α} {a : α}, (l.dropWhile p).head? = some a → p a = false
  | [], a, h => by simp at h
  | b :: rest, a, h => by
    rw [List.dropWhile_cons] at h
    split at h
    · exact head?_dropWhile_false h
    · rename_i hb
      rw [List.head?_cons, Option.some_inj] at h
      rw [← h]
      exact Bool.of_not_eq_true hb

theorem dropWhile_eq_self_of_head {α : Type} {p : α → Bool} {l : List α}
    (h : ∀ a, l.head? = some a → p a = false) : l.dropWhile p = l := by
  cases l with
  | nil => rfl
  | cons a rest => exact List.dropWhile_cons_of_neg (by simp [h a rfl])

theorem stripEnds_head? {p : Char → Bool} {l : List Char} {a : Char}
    (h : (stripEnds p l).head? = some a) : p a = false := by
  rw [stripEnds, List.head?_reverse] at h
  have hx : ((l.dropWhile p).reverse).getLast? = some a := by
    conv_lhs => rw [← List.takeWhile_append_dropWhile p (l.dropWhile p).reverse]
    rw [List.getLast?_append, h]
    rfl
  rw [List.getLast?_reverse] at hx
  exact head?_dropWhile_false hx

theorem stripEnds_getLast? {p : Char → Bool} {l : List Char} {a : Char}
    (h : (stripEnds p l).getLast? = some a) : p a = false := by
  rw [stripEnds, List.getLast?_reverse] at h
  exact head?_dropWhile_false h

theorem stripEnds_eq_self {p : Char → Bool} {l : List Char}
    (h1 : ∀ a, l.head? = some a → p a = false)
    (h2 : ∀ a, l.getLast? = some a → p a = false) : stripEnds p l = l := by
  rw [stripEnds, dropWhile_eq_self_of_head h1, dropWhile_eq_self_of_head
    (by simpa using h2), List.reverse_reverse]

theorem noDub_dropWhile {p : Char → Bool} {l : List Char} (h : NoDub l) :
    NoDub (l.dropWhile p) := by
  rw [← List.takeWhile_append_dropWhile p l] at h
  exact (List.chain'_append.1 h).2.1

theorem noDub_reverse {l : List Char} (h : NoDub l) : NoDub l.reverse :=
  List.chain'_reverse.2 (h.imp fun _ _ hab hc => hab ⟨hc.2, hc.1⟩)

theorem noDub_stripEnds {p : Char → Bool} {l : List Char} (h : NoDub l) :
    NoDub (stripEnds p l) :=
  noDub_reverse (noDub_dropWhile (noDub_reverse (noDub_dropWhile h)))

theorem noDub_map_toLower {l : List Char} (h : NoDub l) :
    NoDub (l.map Char.toLower) :=
  (List.chain'_map _).2 (h.imp fun _ _ hab hc =>
    hab ⟨toLower_hyphen_iff.1 hc.1, toLower_hyphen_iff.1 hc.2⟩)

/-! ## `sanitize_filename` assembly lemmas -/

theorem subst_kept {l : List Char} {c : Char}
    (h : c ∈ l.map (fun c => if keptChar c then c else '-')) : keptChar c = true := by
  rcases List.mem_map.1 h with ⟨x, _, hx⟩
  by_cases hk : keptChar x = true
  · rw [← hx, if_pos hk]
    exact hk
  · rw [← hx, if_neg hk]
    decide

theorem sanitize_data_eq (s : String) :
    (sanitize_filename s).data =
      (stripEnds (fun c => c == '-')
        (collapseHyphens
          (s.data.map (fun c => if keptChar c then c else '-')))).map Char.toLower := rfl

theorem sanitize_mem_kept {s : String} {c : Char}
    (h : c ∈ (sanitize_filename s).data) :
    keptChar c = true ∧ ¬(65 ≤ c.toNat ∧ c.toNat ≤ 90) := by
  rw [sanitize_data_eq] at h
  rcases List.mem_map.1 h with ⟨x, hx, rfl⟩
  have hk : keptChar x = true :=
    subst_kept (collapse_subset (mem_of_mem_stripEnds hx))
  exact ⟨keptChar_toLower hk, toLower_not_upper x⟩

theorem sanitize_noDub (s : String) : NoDub (sanitize_filename s).data := by
  rw [sanitize_data_eq]
  exact noDub_map_toLower (noDub_stripEnds (collapse_noDub _))

theorem sanitize_head_ne {s : String} {a : Char}
    (h : (sanitize_filename s).data.head? = some a) : (a == '-') = false := by
  rw [sanitize_data_eq, List.head?_map] at h
  cases hx : (stripEnds (fun c => c == '-')
      (collapseHyphens (s.data.map (fun c => if keptChar c then c else '-')))).head? with
  | none => rw [hx] at h; cases h
  | some b =>
    rw [hx] at h
    rw [Option.map_some', Option.some_inj] at h
    have hb : (b == '-') = false := @stripEnds_head? (fun c => c == '-') _ _ hx
    rw [← h]
    simp only [beq_eq_false_iff_ne, ne_eq] at hb ⊢
    exact fun hc => hb (toLower_hyphen_iff.1 hc)

theorem sanitize_getLast_ne {s : String} {a : Char}
    (h : (sanitize_filename s).data.getLast? = some a) : (a == '-') = false := by
  rw [sanitize_data_eq, List.getLast?_map] at h
  cases hx : (stripEnds (fun c => c == '-')
      (collapseHyphens (s.data.map (fun c => if keptChar c then c else '-')))).getLast? with
  | none => rw [hx] at h; cases h
  | some b =>
    rw [hx] at h
    rw [Option.map_some', Option.some_inj] at h
    have hb : (b == '-') = false := @stripEnds_getLast? (fun c => c == '-') _ _ hx
    rw [← h]
    simp only [beq_eq_false_iff_ne, ne_eq] at hb ⊢
    exact fun hc => hb (toLower_hyphen_iff.1 hc)

theorem map_subst_eq_self {l : List Char} (h : ∀ c ∈ l, keptChar c = true) :
    l.map (fun c => if keptChar c then c else '-') = l := by
  induction l with
  | nil => rfl
  | cons a rest ih =>
    rw [List.map_cons, if_pos (h a (List.mem_cons_self a rest)),
      ih (fun c hc => h c (List.mem_cons_of_mem a hc))]

theorem map_toLower_eq_self {l : List Char}
    (h : ∀ c ∈ l, ¬(65 ≤ c.toNat ∧ c.toNat ≤ 90)) :
    l.map Char.toLower = l := by
  induction l with
  | nil => rfl
  | cons a rest ih =>
    rw [List.map_cons, toLower_eq_self (h a (List.mem_cons_self a rest)),
      ih (fun c hc => h c (List.mem_cons_of_mem a hc))]

theorem string_eq_of_data {a b : String} (h : a.data = b.data) : a = b := by
  cases a
  cases b
  exact congrArg String.mk h

/-! ## Parser support lemmas -/

theorem bool_not_true {b : Bool} (h : b = false) : ¬(b = true) := by
  simp [h]

theorem mem_of_methodLine {t : String} (h : isMethodLine t = true) : t ∈ httpMethods := by
  rw [isMethodLine] at h
  exact List.elem_iff.1 h

theorem methodLine_not_path {t : String} (h : isMethodLine t = true) :
    isPathLine t = false := by
  have hm := mem_of_methodLine h
  fin_cases hm <;> decide

theorem trim_startsWith_space (line : String) : pyStartsWith (pyTrim line) " " = false := by
  rw [pyStartsWith]
  show ([' ']).isPrefixOf (stripEnds isSpaceChar line.data) = false
  cases hx : stripEnds isSpaceChar line.data with
  | nil => rfl
  | cons a rest =>
    have ha : isSpaceChar a = false := @stripEnds_head? isSpaceChar line.data a (by rw [hx]; rfl)
    have hne : (' ' == a) = false := by
      rw [beq_eq_false_iff_ne]
      intro he
      rw [← he] at ha
      exact absurd ha (by decide)
    simp [List.isPrefixOf, hne]

theorem isPrefix_head {a : Char} {as l : List Char}
    (h : ((a :: as).isPrefixOf l) = true) : ∃ t1, l = a :: t1 ∧ as.isPrefixOf t1 = true := by
  cases l with
  | nil => simp [List.isPrefixOf] at h
  | cons b bs =>
    have h' : (a == b && as.isPrefixOf bs) = true := h
    rw [Bool.and_eq_true, beq_iff_eq] at h'
    exact ⟨bs, by rw [h'.1], h'.2⟩

theorem desc_head {t : String} (h : pyStartsWith t "description:" = true) :
    ∃ t3, t.data = 'd' :: 'e' :: 's' :: t3 := by
  have h0 : (['d','e','s','c','r','i','p','t','i','o','n',':']).isPrefixOf t.data = true := h
  obtain ⟨t1, ht1, h1⟩ := isPrefix_head h0
  obtain ⟨t2, ht2, h2⟩ := isPrefix_head h1
  obtain ⟨t3, ht3, _⟩ := isPrefix_head h2
  exact ⟨t3, by rw [ht1, ht2, ht3]⟩

theorem summary_head {t : String} (h : pyStartsWith t "summary:" = true) :
    ∃ t1, t.data = 's' :: t1 := by
  have h0 : (['s','u','m','m','a','r','y',':']).isPrefixOf t.data = true := h
  obtain ⟨t1, ht1, _⟩ := isPrefix_head h0
  exact ⟨t1, ht1⟩

theorem startsWith_false_of_head {t : String} {a b : Char} {t1 : List Char} {bs : List Char}
    (ht : t.data = a :: t1) {pre : String} (hpre : pre.data = b :: bs) (hab : b ≠ a) :
    pyStartsWith t pre = false := by
  rw [pyStartsWith, hpre, ht]
  show (b == a && bs.isPrefixOf t1) = false
  rw [beq_eq_false_iff_ne.2 hab, Bool.false_and]

theorem not_method_of_head {t : String} {a : Char} {t1 : List Char}
    (ht : t.data = a :: t1) (hg : a ≠ 'g') (hp : a ≠ 'p') (hd : a ≠ 'd') :
    isMethodLine t = false := by
  by_contra hb
  rw [Bool.not_eq_false] at hb
  have hm := mem_of_methodLine hb
  fin_cases hm <;> simp at ht <;>
    first
    | exact hg ht.1.symm
    | exact hp ht.1.symm
    | exact hd ht.1.symm

theorem desc_not_method {t : String} {t3 : List Char}
    (h3 : t.data = 'd' :: 'e' :: 's' :: t3) : isMethodLine t = false := by
  by_contra hb
  rw [Bool.not_eq_false] at hb
  have hm := mem_of_methodLine hb
  fin_cases hm <;> simp_all

theorem not_path_of_head {t : String} {a : Char} {t1 : List Char}
    (ht : t.data = a :: t1) (ha : a ≠ '/') : isPathLine t = false := by
  rw [isPathLine, startsWith_false_of_head ht rfl (Ne.symm ha), Bool.false_and]

theorem ne_tags_of_head {t : String} {a : Char} {t1 : List Char}
    (ht : t.data = a :: t1) (ha : a ≠ 't') : (t == "tags:") = false := by
  rw [beq_eq_false_iff_ne]
  intro he
  rw [he] at ht
  simp at ht
  exact ha ht.1.symm

/-! ## Filename-assignment support lemmas -/

theorem sanitize_ne_empty {s : String} {c : Char} (hc : c ∈ s.data)
    (hk : keptChar c = true) (hh : c ≠ '-') : sanitize_filename s ≠ "" := by
  intro he
  have h1 : c ∈ s.data.map (fun c => if keptChar c then c else '-') :=
    List.mem_map.2 ⟨c, hc, by rw [if_pos hk]⟩
  have h2 := mem_collapse_of_ne hh h1
  have h3 : c ∈ stripEnds (fun c => c == '-')
      (collapseHyphens (s.data.map (fun c => if keptChar c then c else '-'))) :=
    mem_stripEnds_of_ne (by simpa using hh) h2
  have h4 : Char.toLower c ∈ (sanitize_filename s).data := by
    rw [sanitize_data_eq]
    exact List.mem_map.2 ⟨c, h3, rfl⟩
  rw [he] at h4
  simp at h4

theorem uniquifyGo_shape (used : List String) (base : String) :
    ∀ (fuel k : Nat), ∃ j, uniquifyGo used base k fuel = candName base j := by
  intro fuel
  induction fuel with
  | zero => exact fun k => ⟨k, rfl⟩
  | succ n ih =>
    intro k
    rw [uniquifyGo]
    split
    · exact ih (k + 1)
    · exact ⟨k, rfl⟩

theorem candName_ne_empty (base : String) (k : Nat) : candName base k ≠ "" := by
  intro h
  have hd : (candName base k).data = [] := congrArg String.data h
  rw [candName] at hd
  have he : (base ++ "-" ++ toString k).data = (base.data ++ ['-']) ++ (toString k).data := rfl
  rw [he] at hd
  simp at hd

theorem uniquify_ne_empty {used : List String} {base : String} (h : base ≠ "") :
    uniquify used base ≠ "" := by
  rw [uniquify]
  split
  · obtain ⟨j, hj⟩ := uniquifyGo_shape used base (used.length + 1) 1
    rw [hj]
    exact candName_ne_empty base j
  · exact h

theorem fallback_sanitize_ne_empty {m : String}
    (hm : m ∈ (["get", "post", "put", "delete", "patch"] : List String)) (x : String) :
    sanitize_filename (m ++ "-" ++ x) ≠ "" := by
  fin_cases hm
  · exact @sanitize_ne_empty _ 'g' (by simp [String.data_append]) (by decide) (by decide)
  · exact @sanitize_ne_empty _ 'p' (by simp [String.data_append]) (by decide) (by decide)
  · exact @sanitize_ne_empty _ 'p' (by simp [String.data_append]) (by decide) (by decide)
  · exact @sanitize_ne_empty _ 'd' (by simp [String.data_append]) (by decide) (by decide)
  · exact @sanitize_ne_empty _ 'p' (by simp [String.data_append]) (by decide) (by decide)

theorem goodNames_append {ebc : ByCategory} {cat : String} {e : Endpoint}
    (h : GoodNames ebc) (he : e.filename ≠ "") :
    GoodNames (appendToCategory ebc cat e) := by
  induction ebc with
  | nil =>
    intro ce hce e' he'
    rw [appendToCategory] at hce
    rcases List.mem_cons.1 hce with rfl | hce
    · rcases List.mem_cons.1 he' with rfl | h'
      · exact he
      · simp at h'
    · simp at hce
  | cons hd rest ih =>
    intro ce hce e' he'
    rw [appendToCategory] at hce
    split at hce
    · rcases List.mem_cons.1 hce with rfl | hce
      · rcases List.mem_append.1 he' with h' | h'
        · exact h hd (List.mem_cons_self hd rest) e' h'
        · rw [List.mem_singleton.1 h']
          exact he
      · exact h ce (List.mem_cons_of_mem hd hce) e' he'
    · rcases List.mem_cons.1 hce with rfl | hce
      · exact h hd (List.mem_cons_self hd rest) e' he'
      · exact ih (fun ce' hce' => h ce' (List.mem_cons_of_mem hd hce')) ce hce e' he'

theorem goodNames_processOne {ebc : ByCategory} (h : GoodNames ebc)
    (path method : String) (op : Operation) :
    GoodNames (processOne ebc path method op) := by
  rw [processOne]
  split
  · rename_i hm
    apply goodNames_append h
    apply uniquify_ne_empty
    split
    · exact fallback_sanitize_ne_empty (by simpa using hm) _
    · rename_i hne
      simpa using hne
  · exact h

theorem goodNames_processMethods {path : String} :
    ∀ (ms : MethodMap) {ebc : ByCategory}, GoodNames ebc →
      GoodNames (processMethods path ebc ms)
  | [], _, h => h
  | (m, op) :: rest, _, h =>
    goodNames_processMethods rest (goodNames_processOne h path m op)

theorem goodNames_processPaths :
    ∀ (ps : PathMap) {ebc : ByCategory}, GoodNames ebc →
      GoodNames (processPaths ebc ps)
  | [], _, h => h
  | (_p, ms) :: rest, _, h =>
    goodNames_processPaths rest (goodNames_processMethods ms h)

/-! ## Navigation support lemma -/

theorem nav_sum (ebc : ByCategory) :
    ((generate_navigation_config ebc).map (fun g => g.pages.length)).sum =
      (renderedFiles ebc).length := by
  induction ebc with
  | nil => rfl
  | cons hd rest ih =>
    rw [generate_navigation_config]
    split
    · rename_i he
      have h2 : hd.2 = [] := List.isEmpty_iff.1 he
      simp [renderedFiles, h2, ih, List.flatMap_cons]
    · simp only [List.map_cons, List.sum_cons]
      rw [ih]
      simp [renderedFiles, List.flatMap_cons]

/-! ## Claim C1 -/

/-- C1 counterexample: the claim asserts that an operation tagged
`["OpenAI GPT-4o Series"]` categorizes as `openai-gpt4o`.  It does not:
the lower-cased tag is `"openai gpt-4o series"`, which does not contain
the tested substring `"gpt 4o"` (space, not hyphen), so the `'gpt'`
sub-rule fires instead. -/
theorem c1_counterexample :
    get_endpoint_category "/v1/images/generations" ["OpenAI GPT-4o Series"] ≠
      "openai-gpt4o" := by
  decide

/-- C1 (amended): for every path string, categorization of an operation
whose tags list is exactly `["OpenAI GPT-4o Series"]` returns the
category `openai-gpt` — tags take priority over the path, and the first
tag, lower-cased, matches the `'openai'` rule and then the `'gpt'`
sub-rule, since the nested `'gpt 4o'` test (with a space) does not match
the hyphenated `gpt-4o`. -/
theorem c1_tag_gpt4o_series_category (path : String) :
    get_endpoint_category path ["OpenAI GPT-4o Series"] = "openai-gpt" := rfl

/-! ## Claim C2 -/

/-- C2 counterexample: the claim asserts that an indented non-list line
does not close an open tag block, and that a path or method marker that
closes one still commits the accumulated tags.  Both fail.  In the first
input, the indented line `  x: y` closes the block (classification uses
the trimmed line, so the no-leading-whitespace test is vacuous), hence
the later `- U` is not appended and the committed tags are `["T"]`, not
`["T", "U"]`.  In the second input, the method marker `post:` stores the
in-progress operation and discards the pending tags `["T"]`: the stored
`get` operation has no tags field at all.  In the third input, the path
marker `/b:` does the same: the `get` operation of `/a` is stored
without the pending tags `["T"]`. -/
theorem c2_counterexample :
    (lookupOp (parse_yaml_basic "/a:\nget:\ntags:\n- T\n  x: y\n- U") "/a" "get").bind
        (fun o => o.tags) = some ["T"] ∧
    (lookupOp (parse_yaml_basic "/a:\nget:\ntags:\n- T\npost:\nsummary: s") "/a" "get").bind
        (fun o => o.tags) = none ∧
    (lookupOp (parse_yaml_basic "/a:\nget:\ntags:\n- T\n/b:\nget:\nsummary: s") "/a" "get").bind
        (fun o => o.tags) = none := by
  refine ⟨?_, ?_, ?_⟩
  · decide
  · decide
  · decide

/-- C2 (amended): while a tag block is open, any line whose trimmed form
is non-empty and does not start with `- ` ends tag accumulation,
regardless of the original line's indentation (the parser classifies the
trimmed line, so the leading-whitespace test is vacuous).  If such a
line is not a path marker, a method marker, or `tags:` itself, it closes
the block and commits the accumulated tags onto the in-progress
Operation; a method marker instead stores the in-progress Operation
*without* the accumulated tags — they are discarded as the cursor
advances — and a path marker does the same before resetting the path
cursor and clearing the method cursor. -/
theorem c2_tag_block_close (st : ParserState) (line : String)
    (h1 : st.in_tags = true)
    (h3 : (pyTrim line == "") = false)
    (h2 : pyStartsWith (pyTrim line) "- " = false) :
    (isPathLine (pyTrim line) = false → isMethodLine (pyTrim line) = false →
      (pyTrim line == "tags:") = false →
      step st line =
        { st with
          in_tags := false
          current_operation := { st.current_operation with tags := some st.tags } }) ∧
    (isMethodLine (pyTrim line) = true → ∀ p m, st.current_path = some p →
      st.current_method = some m → (p == "") = false → (m == "") = false →
      step st line =
        { paths := storeOp st.paths p m st.current_operation
          current_path := st.current_path
          current_method := some (pyDropLast (pyTrim line))
          current_operation := emptyOp
          in_tags := false
          tags := [] }) ∧
    (isPathLine (pyTrim line) = true → ∀ p m, st.current_path = some p →
      st.current_method = some m → (p == "") = false → (m == "") = false →
      step st line =
        { paths := storeOp st.paths p m st.current_operation
          current_path := some (pyDropLast (pyTrim line))
          current_method := none
          current_operation := emptyOp
          in_tags := false
          tags := [] }) := by
  refine ⟨?_, ?_, ?_⟩
  · intro hp hm htg
    rw [step, if_neg (bool_not_true hp), if_neg (bool_not_true hm), if_neg (bool_not_true htg),
      if_neg (bool_not_true (by rw [h1, h2]; rfl)),
      if_pos (by rw [h1, h2, h3, trim_startsWith_space line]; rfl)]
  · intro hm p m hcp hcm hpne hmne
    rw [step, if_neg (bool_not_true (methodLine_not_path hm)), if_pos hm]
    rw [ParserState.mk.injEq]
    refine ⟨?_, rfl, rfl, rfl, rfl, rfl⟩
    rw [commitCurrent, hcp, hcm]
    simp only [hpne, hmne, Bool.not_false, Bool.and_self, if_true]
  · intro hp p m hcp hcm hpne hmne
    rw [step, if_pos hp]
    rw [ParserState.mk.injEq]
    refine ⟨?_, rfl, rfl, rfl, rfl, rfl⟩
    rw [commitCurrent, hcp, hcm]
    simp only [hpne, hmne, Bool.not_false, Bool.and_self, if_true]

/-- C2 witness: all three parts of the amended theorem at a concrete
state with an open tag block holding `["T"]`: the field line `x: y`
commits the tags, while the method marker `post:` and the path marker
`/b:` each store the operation without them. -/
theorem c2_tag_block_close_witness :
    step ⟨[], some "/a", some "get", emptyOp, true, ["T"]⟩ "  x: y" =
      ⟨[], some "/a", some "get", { tags := some ["T"] }, false, ["T"]⟩ ∧
    step ⟨[], some "/a", some "get", emptyOp, true, ["T"]⟩ "post:" =
      ⟨[("/a", [("get", emptyOp)])], some "/a", some "post", emptyOp, false, []⟩ ∧
    step ⟨[], some "/a", some "get", emptyOp, true, ["T"]⟩ "/b:" =
      ⟨[("/a", [("get", emptyOp)])], some "/b", none, emptyOp, false, []⟩ :=
  ⟨(c2_tag_block_close ⟨[], some "/a", some "get", emptyOp, true, ["T"]⟩ "  x: y"
      rfl (by decide) (by decide)).1 (by decide) (by decide) (by decide),
   (c2_tag_block_close ⟨[], some "/a", some "get", emptyOp, true, ["T"]⟩ "post:"
      rfl (by decide) (by decide)).2.1 (by decide) "/a" "get" rfl rfl (by decide) (by decide),
   (c2_tag_block_close ⟨[], some "/a", some "get", emptyOp, true, ["T"]⟩ "/b:"
      rfl (by decide) (by decide)).2.2 (by decide) "/a" "get" rfl rfl (by decide) (by decide)⟩

/-! ## Claim C3 -/

/-- C3 counterexample: the claim asserts that method markers are
recognized after lower-casing, so that a line whose trimmed form is
`GET:` opens the method `get`.  It does not: the comparison
`line_stripped in ['get:', ...]` is case-sensitive, so `GET:` matches
nothing, no method is ever opened, and the input below produces an
empty paths map instead of an entry under `("/a", "get")`. -/
theorem c3_counterexample :
    (parse_yaml_basic "/a:\nGET:\nsummary: hi").paths = [] := by
  decide

/-- C3 (amended): a line is recognized as a method marker exactly when
its trimmed form — case-sensitively, with no lower-casing — equals one
of `get:`, `post:`, `put:`, `delete:`, `patch:`; such a line opens the
method named by the marker minus its colon, and any other line except a
path marker leaves the method cursor unchanged (so `GET:` does not open
a method). -/
theorem c3_method_marker (st : ParserState) (line : String) :
    (isMethodLine (pyTrim line) = true →
      (step st line).current_method = some (pyDropLast (pyTrim line))) ∧
    (isMethodLine (pyTrim line) = false → isPathLine (pyTrim line) = false →
      (step st line).current_method = st.current_method) := by
  constructor
  · intro hm
    rw [step, if_neg (bool_not_true (methodLine_not_path hm)), if_pos hm]
  · intro hm hp
    rw [step, if_neg (bool_not_true hp), if_neg (bool_not_true hm)]
    split
    · rfl
    split
    · rfl
    split
    · rfl
    split
    · split <;> rfl
    split
    · split <;> rfl
    · rfl

/-- C3 witness: `post:` opens the method `post` from the initial state,
while `GET:` leaves the method cursor unset. -/
theorem c3_method_marker_witness :
    (step initState "post:").current_method = some "post" ∧
    (step initState "GET:").current_method = none :=
  ⟨((c3_method_marker initState "post:").1 (by decide)).trans (by decide),
   ((c3_method_marker initState "GET:").2 (by decide) (by decide)).trans rfl⟩

/-! ## Claim C4 -/

/-- C4 counterexample: the claim asserts that filename uniqueness is
keyed by (category, filename), so two endpoints in different categories
sharing a sanitized base name both keep the unsuffixed name.  They do
not: the collision scan ranges over the filenames of *all* categories,
so of the two endpoints below — one categorized `openai-gpt`, the other
`midjourney`, both with summary `Hello` — the second is renamed to
`hello-1`. -/
theorem c4_counterexample :
    ((buildEndpoints (parse_yaml_basic
        "/v1/chat/a:\npost:\nsummary: Hello\n/v1/mj/b:\npost:\nsummary: Hello").paths).map
      (fun ce => (ce.1, ce.2.map (fun e => e.filename)))) =
    [("openai-gpt", ["hello"]), ("midjourney", ["hello-1"])] := by
  decide

/-- C4 (amended): filename uniqueness is keyed by the filename alone,
globally across all categories: a computed base filename is kept exactly
when it collides with no previously assigned filename in *any* category,
and on the first such collision it receives the suffix `-1` (when
`base-1` is itself still unassigned), regardless of the categories
involved. -/
theorem c4_collision_suffix (used : List String) (base : String) :
    (used.contains base = false → uniquify used base = base) ∧
    (used.contains base = true → used.contains (candName base 1) = false →
      uniquify used base = candName base 1) := by
  constructor
  · intro h
    rw [uniquify, h]
    rfl
  · intro h h1
    rw [uniquify, h]
    show uniquifyGo used base 1 (used.length + 1) = candName base 1
    rw [uniquifyGo, h1]
    rfl

/-- C4 witness: a fresh name is kept unchanged, and a name colliding
with an already-assigned one receives the suffix `-1`. -/
theorem c4_collision_suffix_witness :
    uniquify [] "x" = "x" ∧ uniquify ["hello"] "hello" = candName "hello" 1 :=
  ⟨(c4_collision_suffix [] "x").1 rfl,
   (c4_collision_suffix ["hello"] "hello").2 (by decide) (by decide)⟩

/-! ## Claim C5 -/

/-- C5 counterexample: the claim asserts that `sanitize_filename` strips
every character except letters, digits, and hyphens, so its output
contains only lower-case letters, digits, and hyphens.  It does not:
the regex class `\w` keeps the underscore, so `a_b` sanitizes to itself,
and `_` is neither a letter, nor a digit, nor a hyphen. -/
theorem c5_counterexample :
    sanitize_filename "a_b" = "a_b" ∧ '_' ∈ ("a_b" : String).data ∧
    ('_'.isAlpha || '_'.isDigit || '_' == '-') = false := by
  decide

/-- C5 (amended): `sanitize_filename` keeps word characters — letters
(including the CJK range named by the source), digits, and the
underscore — and hyphens, replacing each run of removed characters with
a single hyphen, collapsing repeated hyphens, stripping leading and
trailing hyphens, and lower-casing; consequently every character of its
output is a kept character (letter, digit, underscore, or hyphen) and is
fixed by lower-casing, i.e. not an upper-case letter. -/
theorem c5_sanitize_alphabet (s : String) :
    (sanitize_filename s).data.all (fun c => keptChar c && (Char.toLower c == c)) = true := by
  rw [List.all_eq_true]
  intro c hc
  have h := sanitize_mem_kept hc
  rw [Bool.and_eq_true, beq_iff_eq]
  exact ⟨h.1, toLower_eq_self h.2⟩

/-! ## Claim C6 -/

/-- C6 (confirmed): filename sanitization is idempotent — for every
input string `s`, `sanitize_filename (sanitize_filename s)` equals
`sanitize_filename s`.  Every character of a sanitized string is kept
by the substitution, the string has no adjacent hyphens, no leading or
trailing hyphen, and no upper-case letter, so the second pass changes
nothing. -/
theorem c6_sanitize_idempotent (s : String) :
    sanitize_filename (sanitize_filename s) = sanitize_filename s := by
  apply string_eq_of_data
  rw [sanitize_data_eq (sanitize_filename s)]
  rw [map_subst_eq_self (fun c hc => (sanitize_mem_kept hc).1)]
  rw [collapse_id (sanitize_noDub s)]
  rw [stripEnds_eq_self (fun a ha => sanitize_head_ne ha) (fun a ha => sanitize_getLast_ne ha)]
  rw [map_toLower_eq_self (fun c hc => (sanitize_mem_kept hc).2)]

/-! ## Claim C7 -/

/-- C7 counterexample: the claim asserts that a `description:` line
always sets the description to the trimmed tail after 11 characters
with one layer of surrounding quotes stripped.  Two failures: first,
quote stripping is not one surrounding layer — Python's
`.strip('\x27"')` removes every leading and trailing quote character on
each side independently, so `description: "hello"` yields `: "hello`
(the 11-character cut leaves the colon, which blocks the leading side,
while the trailing quote is removed even though the value is not
quote-surrounded); second, when a tag block is open, the line closes the
block instead and the description is never set. -/
theorem c7_counterexample :
    (lookupOp (parse_yaml_basic "/a:\nget:\ndescription: \"hello\"") "/a" "get").bind
        (fun o => o.description) = some ": \"hello" ∧
    (lookupOp (parse_yaml_basic "/a:\nget:\ntags:\ndescription: hi") "/a" "get").bind
        (fun o => o.description) = none := by
  constructor
  · decide
  · decide

/-- C7 (amended): when no tag block is open, a line whose trimmed form
starts with `description:` sets the in-progress Operation's description
to the content of the trimmed line after its first 11 characters,
trimmed, with *all* leading and trailing single or double quote
characters removed (each side independently, not one surrounding
layer); the same treatment applies to `summary:` with an 8-character
prefix.  When a tag block is open, such a line instead closes the block
and the field is not set. -/
theorem c7_description_field (st : ParserState) (line : String) (h : st.in_tags = false) :
    (pyStartsWith (pyTrim line) "description:" = true →
      (step st line).current_operation.description =
        some (pyStripQuotes (pyTrim (pyDrop (pyTrim line) 11)))) ∧
    (pyStartsWith (pyTrim line) "summary:" = true →
      (step st line).current_operation.summary =
        some (pyStripQuotes (pyTrim (pyDrop (pyTrim line) 8)))) := by
  constructor
  · intro hd
    obtain ⟨t3, ht⟩ := desc_head hd
    rw [step, if_neg (bool_not_true (not_path_of_head ht (by decide))),
      if_neg (bool_not_true (desc_not_method ht)),
      if_neg (bool_not_true (ne_tags_of_head ht (by decide))),
      if_neg (bool_not_true (by rw [h, Bool.false_and])),
      if_neg (bool_not_true (by rw [h, Bool.and_false])),
      if_neg (bool_not_true (startsWith_false_of_head ht rfl (by decide))),
      if_pos hd]
  · intro hs
    obtain ⟨t1, ht⟩ := summary_head hs
    rw [step, if_neg (bool_not_true (not_path_of_head ht (by decide))),
      if_neg (bool_not_true (not_method_of_head ht (by decide) (by decide) (by decide))),
      if_neg (bool_not_true (ne_tags_of_head ht (by decide))),
      if_neg (bool_not_true (by rw [h, Bool.false_and])),
      if_neg (bool_not_true (by rw [h, Bool.and_false])),
      if_pos hs]

/-- C7 witness: from the initial state (no tag block open), a quoted
description line keeps the colon and loses only its trailing quote, and
a summary line is cut after 8 characters. -/
theorem c7_description_field_witness :
    (step initState "description: \"hi\"").current_operation.description = some ": \"hi" ∧
    (step initState "summary: ok").current_operation.summary = some "ok" :=
  ⟨((c7_description_field initState "description: \"hi\"" rfl).1 (by decide)).trans (by decide),
   ((c7_description_field initState "summary: ok" rfl).2 (by decide)).trans (by decide)⟩

/-! ## Claim C8 -/

/-- C8 (confirmed): for every input text, the navigation manifest built
from the parsed specification has, summed across all groups, exactly as
many page references as there are rendered endpoint documents — one
document per endpoint and one page reference per endpoint. -/
theorem c8_nav_page_count (content : String) :
    ((generate_navigation_config (buildEndpoints (parse_yaml_basic content).paths)).map
      (fun g => g.pages.length)).sum =
    (renderedFiles (buildEndpoints (parse_yaml_basic content).paths)).length :=
  nav_sum _

/-! ## Claim C9 -/

/-- C9 (confirmed): the extractor is total by construction
(`parse_yaml_basic` is a total function on strings), and a scanned line
that matches no recognized marker — not a path marker, not a method
marker, not `tags:`, not a `summary:` or `description:` line, with no
tag block open — leaves the parser state completely unchanged: it is
silently skipped, and a field never set stays `none` on the resulting
Operation. -/
theorem c9_unrecognized_skip (st : ParserState) (line : String)
    (h1 : st.in_tags = false)
    (h2 : isPathLine (pyTrim line) = false)
    (h3 : isMethodLine (pyTrim line) = false)
    (h4 : (pyTrim line == "tags:") = false)
    (h5 : pyStartsWith (pyTrim line) "summary:" = false)
    (h6 : pyStartsWith (pyTrim line) "description:" = false) :
    step st line = st := by
  rw [step]
  simp only [h1, h2, h3, h4, h5, h6, Bool.false_and, Bool.and_false, if_false]
  rfl

/-- C9 witness: the unrecognized header line `openapi: 3.0.0` leaves the
initial parser state untouched. -/
theorem c9_unrecognized_skip_witness : step initState "openapi: 3.0.0" = initState :=
  c9_unrecognized_skip initState "openapi: 3.0.0" rfl (by decide) (by decide) (by decide)
    (by decide) (by decide)

/-! ## Claim C10 -/

/-- C10 (confirmed): every endpoint collected by the assignment loop of
`main` carries a non-empty filename, for every parsed paths map: when
sanitizing the summary (or the method-and-path default) yields the empty
string, the sanitized fallback built from the method and the
slash-to-hyphen path is used instead, and since the method is one of
`get`, `post`, `put`, `delete`, `patch`, that fallback always keeps the
method's letters and is never empty; collision suffixes preserve
non-emptiness. -/
theorem c10_filename_nonempty (paths : PathMap) :
    (buildEndpoints paths).all
      (fun ce => ce.2.all (fun e => !(e.filename == ""))) = true := by
  rw [List.all_eq_true]
  intro ce hce
  rw [List.all_eq_true]
  intro e he
  have hg : GoodNames (buildEndpoints paths) :=
    goodNames_processPaths paths (fun ce hce => by simp at hce)
  simpa using hg ce hce e he

end ApiDocs
